import Mathlib

/-!
Shallow embedding of the Concordium multisig wallet contract
(src/src/lib.rs) and verification of its specification claims.

Machine integers are modelled as `Nat` with explicit reduction where the
source can overflow: `last_request_id` is a `u128` and Rust release builds
use wrapping addition, so the increment is taken modulo `2 ^ 128`; the
`usize` word size of the wasm32 target is 32 bits, so the bitwise negation
`!len` appearing in the execute/view guards is two's-complement negation
modulo `2 ^ 32`.  The `StateMap` is embedded as an association list with
BTreeMap-style insert / lookup / remove.  The host is embedded by explicit
state passing: every receive entrypoint returns its result together with
the state as it stands when the function returns.
-/

namespace Multisig

/-- Constant `TRANSFER_AGREEMENT_THRESHOLD` from the source: how many owners
need to agree before transfer. -/
def TRANSFER_AGREEMENT_THRESHOLD : Nat := 3

/-- Modulus of the `u128` type of `TransferRequestId`. -/
def U128_MOD : Nat := 2 ^ 128

/-- Modulus of `usize` on the wasm32 target. -/
def USIZE_MOD : Nat := 2 ^ 32

/-- Rust bitwise negation `!n` on a `usize` value. -/
def usizeNot (n : Nat) : Nat := (USIZE_MOD - 1) - n % USIZE_MOD

/-- Account addresses, opaque identities compared for equality. -/
abbrev AccountAddress := Nat

/-- Source type `TransferRequestId = u128`; values kept below `U128_MOD`. -/
abbrev TransferRequestId := Nat

/-- CCD amounts (`Amount`); the contract only passes them through. -/
abbrev Amount := Nat

/-- Concordium `Address`: an account or a contract principal. -/
inductive Address where
  | Account (a : AccountAddress)
  | Contract (c : Nat)
deriving DecidableEq

/-- Source method `Address::matches_account`: true exactly for the equal account. -/
def Address.matches_account : Address → AccountAddress → Bool
  | .Account a, o => a == o
  | .Contract _, _ => false

/-- The `TransferRequest` record stored per request id. -/
structure TransferRequest where
  transfer_amount : Amount
  target_account : AccountAddress
  supporters : Finset AccountAddress
deriving DecidableEq

/-- The request map: association list with unique keys, embedding
`StateMap<TransferRequestId, TransferRequest>`. -/
abbrev RequestMap := List (Nat × TransferRequest)

/-- Map lookup (`get` / `entry` probe). -/
def reqLookup : RequestMap → Nat → Option TransferRequest
  | [], _ => none
  | (k, v) :: rest, k' => if k = k' then some v else reqLookup rest k'

/-- Map insert: replaces the binding when the key is present. -/
def reqInsert : RequestMap → Nat → TransferRequest → RequestMap
  | [], k, v => [(k, v)]
  | (k', v') :: rest, k, v =>
    if k' = k then (k, v) :: rest else (k', v') :: reqInsert rest k v

/-- Map remove. -/
def reqErase : RequestMap → Nat → RequestMap
  | [], _ => []
  | (k', v') :: rest, k =>
    if k' = k then reqErase rest k else (k', v') :: reqErase rest k

/-- The contract state. -/
structure State where
  owners : Finset AccountAddress
  last_request_id : Nat
  requests : RequestMap
deriving DecidableEq

/-- Source struct `InitParams`. -/
structure InitParams where
  owners : Finset AccountAddress
deriving DecidableEq

/-- Source struct `SubmitParams`. -/
structure SubmitParams where
  transfer_amount : Amount
  target_account : AccountAddress
deriving DecidableEq

/-- The contract error enum. -/
inductive Error where
  | ParseParams
  | InsufficientOwners
  | NotOwner
  | ContractSender
  | InsufficientAvailableFunds
  | RequestNotFound
  | RequestAlreadyExists
  | MismatchingRequestInformation
  | RequestAlreadySupported
  | RequestAlreadyNotSupported
  | RequestNotSupportedByAllOwners
  | InvokeTransferMissingAccount
  | InvokeTransferInsufficientFunds
deriving DecidableEq

/-- Errors of the host transfer primitive. -/
inductive TransferError where
  | AmountTooLarge
  | MissingAccount
deriving DecidableEq

/-- Source conversion `impl From<TransferError> for Error`. -/
def Error.fromTransferError : TransferError → Error
  | .AmountTooLarge => .InvokeTransferInsufficientFunds
  | .MissingAccount => .InvokeTransferMissingAccount

instance {ε α : Type} [DecidableEq ε] [DecidableEq α] : DecidableEq (Except ε α) := fun x y =>
  match x, y with
  | .ok a, .ok b => decidable_of_iff (a = b) (by simp)
  | .ok _, .error _ => isFalse (by simp)
  | .error _, .ok _ => isFalse (by simp)
  | .error e, .error f => decidable_of_iff (e = f) (by simp)

/-- Source function `is_owner`: does the sender address match some member of
`owners`? -/
def is_owner (account : Address) (owners : Finset AccountAddress) : Bool :=
  decide (∃ o ∈ owners, account.matches_account o = true)

/-- Entrypoint `contract_init`: requires exactly `TRANSFER_AGREEMENT_THRESHOLD` owners,
starts with `last_request_id = 0` and an empty request map. -/
def contract_init (params : InitParams) : Except Error State :=
  if params.owners.card = TRANSFER_AGREEMENT_THRESHOLD then
    .ok { owners := params.owners, last_request_id := 0, requests := [] }
  else
    .error .InsufficientOwners

/-- Entrypoint `contract_receive_deposit`: ignores its context and always succeeds. -/
def contract_receive_deposit (_sender : Address) (s : State) :
    Except Error Unit × State :=
  (.ok (), s)

/-- Entrypoint `contract_receive_submit_transfer_request`. -/
def contract_receive_submit_transfer_request (sender : Address)
    (params : SubmitParams) (s : State) :
    Except Error Nat × State :=
  if is_owner sender s.owners then
    match sender with
    | .Contract _ => (.error .ContractSender, s)
    | .Account sender_address =>
      let req_id := (s.last_request_id + 1) % U128_MOD
      let new_request : TransferRequest :=
        { transfer_amount := params.transfer_amount
          target_account := params.target_account
          supporters := {sender_address} }
      (.ok req_id,
        { s with
            requests := reqInsert s.requests req_id new_request
            last_request_id := req_id })
  else
    (.error .NotOwner, s)

/-- Entrypoint `contract_receive_support_transfer_request`. -/
def contract_receive_support_transfer_request (sender : Address)
    (request_id : Nat) (s : State) :
    Except Error Unit × State :=
  if is_owner sender s.owners then
    match sender with
    | .Contract _ => (.error .ContractSender, s)
    | .Account sender_address =>
      match reqLookup s.requests request_id with
      | none => (.error .RequestNotFound, s)
      | some matching_request =>
        if sender_address ∈ matching_request.supporters then
          (.error .RequestAlreadySupported, s)
        else
          (.ok (),
            { s with
                requests := reqInsert s.requests request_id
                  { matching_request with
                      supporters := insert sender_address matching_request.supporters } })
  else
    (.error .NotOwner, s)

/-- Entrypoint `contract_receive_not_support_transfer_request`. -/
def contract_receive_not_support_transfer_request (sender : Address)
    (request_id : Nat) (s : State) :
    Except Error Unit × State :=
  if is_owner sender s.owners then
    match sender with
    | .Contract _ => (.error .ContractSender, s)
    | .Account sender_address =>
      match reqLookup s.requests request_id with
      | none => (.error .RequestNotFound, s)
      | some matching_request =>
        if sender_address ∈ matching_request.supporters then
          (.ok (),
            { s with
                requests := reqInsert s.requests request_id
                  { matching_request with
                      supporters := matching_request.supporters.erase sender_address } })
        else
          (.error .RequestAlreadyNotSupported, s)
  else
    (.error .NotOwner, s)

/-- Entrypoint `contract_receive_execute_transfer_request`.  The guard is the source's
`ensure!(!matching_request.supporters.len() == TRANSFER_AGREEMENT_THRESHOLD, …)`
where `!` is bitwise negation on `usize`; the request is removed from the
map before the host transfer (here an explicit oracle) is invoked. -/
def contract_receive_execute_transfer_request (sender : Address)
    (request_id : Nat)
    (transfer : AccountAddress → Amount → Except TransferError Unit)
    (s : State) : Except Error Unit × State :=
  if is_owner sender s.owners then
    match reqLookup s.requests request_id with
    | none => (.error .RequestNotFound, s)
    | some matching_request =>
      if usizeNot matching_request.supporters.card = TRANSFER_AGREEMENT_THRESHOLD then
        let s1 : State := { s with requests := reqErase s.requests request_id }
        match transfer matching_request.target_account matching_request.transfer_amount with
        | .ok _ => (.ok (), s1)
        | .error te => (.error (Error.fromTransferError te), s1)
      else
        (.error .RequestNotSupportedByAllOwners, s)
  else
    (.error .NotOwner, s)

/-- Entrypoint `contract_receive_view_transfer_request`: same guard as execution, then
returns a clone of the request without mutating the state. -/
def contract_receive_view_transfer_request (sender : Address)
    (request_id : Nat) (s : State) :
    Except Error TransferRequest × State :=
  if is_owner sender s.owners then
    match reqLookup s.requests request_id with
    | none => (.error .RequestNotFound, s)
    | some matching_request =>
      if usizeNot matching_request.supporters.card = TRANSFER_AGREEMENT_THRESHOLD then
        (.ok matching_request, s)
      else
        (.error .RequestNotSupportedByAllOwners, s)
  else
    (.error .NotOwner, s)

/-! ### Basic lemmas about the map embedding and the owner check -/

theorem reqLookup_insert (m : RequestMap) (k k' : Nat)
    (v : TransferRequest) :
    reqLookup (reqInsert m k v) k' = if k = k' then some v else reqLookup m k' := by
  induction m with
  | nil => simp [reqInsert, reqLookup]
  | cons hd tl ih =>
    obtain ⟨k₀, v₀⟩ := hd
    by_cases h : k₀ = k
    · subst h
      by_cases h2 : k₀ = k' <;> simp [reqInsert, reqLookup, h2]
    · by_cases h2 : k = k'
      · subst h2
        simp [reqInsert, reqLookup, h, ih]
      · simp [reqInsert, reqLookup, h, h2, ih]

theorem reqLookup_erase (m : RequestMap) (k k' : Nat) :
    reqLookup (reqErase m k) k' = if k = k' then none else reqLookup m k' := by
  induction m with
  | nil => simp [reqErase, reqLookup]
  | cons hd tl ih =>
    obtain ⟨k₀, v₀⟩ := hd
    by_cases h : k₀ = k
    · subst h
      by_cases h2 : k₀ = k'
      · subst h2
        simp [reqErase, reqLookup, ih]
      · simp [reqErase, reqLookup, h2, ih]
    · by_cases h2 : k = k'
      · subst h2
        simp [reqErase, reqLookup, h, ih]
      · simp [reqErase, reqLookup, h, h2, ih]

theorem is_owner_account_iff (a : AccountAddress) (owners : Finset AccountAddress) :
    is_owner (.Account a) owners = true ↔ a ∈ owners := by
  unfold is_owner
  simp only [decide_eq_true_eq, Address.matches_account, beq_iff_eq]
  constructor
  · rintro ⟨o, ho, rfl⟩
    exact ho
  · intro h
    exact ⟨a, h, rfl⟩

theorem is_owner_contract (c : Nat) (owners : Finset AccountAddress) :
    is_owner (.Contract c) owners = false := by
  unfold is_owner
  simp [Address.matches_account]

/-! ### Operations, traces and reachability -/

/-- One external call to a receive entrypoint of the contract (the execute
variant carries the host transfer oracle used during that call). -/
inductive Op where
  | deposit (sender : Address)
  | submit (sender : Address) (params : SubmitParams)
  | support (sender : Address) (id : Nat)
  | notSupport (sender : Address) (id : Nat)
  | execute (sender : Address) (id : Nat)
      (transfer : AccountAddress → Amount → Except TransferError Unit)
  | view (sender : Address) (id : Nat)

/-- Run one call: the error it produces (if any) and the state it leaves. -/
def runOp : Op → State → Option Error × State
  | .deposit sender, s =>
    match contract_receive_deposit sender s with
    | (.ok _, s₁) => (none, s₁)
    | (.error e, s₁) => (some e, s₁)
  | .submit sender params, s =>
    match contract_receive_submit_transfer_request sender params s with
    | (.ok _, s₁) => (none, s₁)
    | (.error e, s₁) => (some e, s₁)
  | .support sender id, s =>
    match contract_receive_support_transfer_request sender id s with
    | (.ok _, s₁) => (none, s₁)
    | (.error e, s₁) => (some e, s₁)
  | .notSupport sender id, s =>
    match contract_receive_not_support_transfer_request sender id s with
    | (.ok _, s₁) => (none, s₁)
    | (.error e, s₁) => (some e, s₁)
  | .execute sender id transfer, s =>
    match contract_receive_execute_transfer_request sender id transfer s with
    | (.ok _, s₁) => (none, s₁)
    | (.error e, s₁) => (some e, s₁)
  | .view sender id, s =>
    match contract_receive_view_transfer_request sender id s with
    | (.ok _, s₁) => (none, s₁)
    | (.error e, s₁) => (some e, s₁)

/-- The state left by one call. -/
def applyOp (op : Op) (s : State) : State := (runOp op s).2

/-- Run a list of calls left to right. -/
def runTrace : State → List Op → State
  | s, [] => s
  | s, op :: rest => runTrace (applyOp op s) rest

/-- The request ids returned by the successful submissions of a trace,
in call order. -/
def submitIds : State → List Op → List Nat
  | _, [] => []
  | s, op :: rest =>
    match op with
    | .submit sender params =>
      match contract_receive_submit_transfer_request sender params s with
      | (.ok i, s₁) => i :: submitIds s₁ rest
      | (.error _, s₁) => submitIds s₁ rest
    | _ => submitIds (applyOp op s) rest

/-- States reachable from a successful initialization through any sequence
of entrypoint calls (successful or failed). -/
inductive Reachable : State → Prop where
  | init (params : InitParams) (s : State)
      (h : contract_init params = .ok s) : Reachable s
  | step (op : Op) (s : State) (h : Reachable s) : Reachable (applyOp op s)

/-! ### Shape lemmas for the entrypoints -/

theorem submit_not_owner (sender : Address) (p : SubmitParams) (s : State)
    (h : is_owner sender s.owners = false) :
    contract_receive_submit_transfer_request sender p s = (.error .NotOwner, s) := by
  unfold contract_receive_submit_transfer_request
  simp [h]

theorem submit_ok (a : AccountAddress) (p : SubmitParams) (s : State)
    (h : a ∈ s.owners) :
    contract_receive_submit_transfer_request (.Account a) p s =
      (.ok ((s.last_request_id + 1) % U128_MOD),
        { owners := s.owners
          last_request_id := (s.last_request_id + 1) % U128_MOD
          requests := reqInsert s.requests ((s.last_request_id + 1) % U128_MOD)
            { transfer_amount := p.transfer_amount
              target_account := p.target_account
              supporters := {a} } }) := by
  unfold contract_receive_submit_transfer_request
  rw [(is_owner_account_iff a s.owners).mpr h]
  rfl

theorem submit_cases (sender : Address) (p : SubmitParams) (s : State) :
    contract_receive_submit_transfer_request sender p s = (.error .NotOwner, s) ∨
    ∃ a, sender = .Account a ∧ a ∈ s.owners ∧
      contract_receive_submit_transfer_request sender p s =
        (.ok ((s.last_request_id + 1) % U128_MOD),
          { owners := s.owners
            last_request_id := (s.last_request_id + 1) % U128_MOD
            requests := reqInsert s.requests ((s.last_request_id + 1) % U128_MOD)
              { transfer_amount := p.transfer_amount
                target_account := p.target_account
                supporters := {a} } }) := by
  match sender with
  | .Contract c =>
    exact .inl (submit_not_owner _ p s (is_owner_contract c s.owners))
  | .Account a =>
    by_cases h : a ∈ s.owners
    · exact .inr ⟨a, rfl, h, submit_ok a p s h⟩
    · refine .inl (submit_not_owner _ p s ?_)
      rw [← Bool.not_eq_true]
      simpa [is_owner_account_iff] using h

theorem support_not_owner (sender : Address) (id : Nat) (s : State)
    (h : is_owner sender s.owners = false) :
    contract_receive_support_transfer_request sender id s = (.error .NotOwner, s) := by
  unfold contract_receive_support_transfer_request
  simp [h]

theorem support_already (a : AccountAddress) (id : Nat) (s : State)
    (r : TransferRequest) (ho : a ∈ s.owners)
    (hl : reqLookup s.requests id = some r) (hm : a ∈ r.supporters) :
    contract_receive_support_transfer_request (.Account a) id s =
      (.error .RequestAlreadySupported, s) := by
  unfold contract_receive_support_transfer_request
  rw [(is_owner_account_iff a s.owners).mpr ho]
  simp [hl, hm]

theorem support_ok (a : AccountAddress) (id : Nat) (s : State)
    (r : TransferRequest) (ho : a ∈ s.owners)
    (hl : reqLookup s.requests id = some r) (hm : a ∉ r.supporters) :
    contract_receive_support_transfer_request (.Account a) id s =
      (.ok (),
        { s with
            requests := reqInsert s.requests id
              { r with supporters := insert a r.supporters } }) := by
  unfold contract_receive_support_transfer_request
  rw [(is_owner_account_iff a s.owners).mpr ho]
  simp [hl, hm]

theorem support_state_cases (sender : Address) (id : Nat) (s : State) :
    (contract_receive_support_transfer_request sender id s).2 = s ∨
    ∃ a r, sender = .Account a ∧ a ∈ s.owners ∧
      reqLookup s.requests id = some r ∧ a ∉ r.supporters ∧
      (contract_receive_support_transfer_request sender id s).2 =
        { s with
            requests := reqInsert s.requests id
              { r with supporters := insert a r.supporters } } := by
  by_cases h : is_owner sender s.owners = true
  · cases sender with
    | Contract c => rw [is_owner_contract] at h; exact absurd h (by simp)
    | Account a =>
      have ho : a ∈ s.owners := (is_owner_account_iff a s.owners).mp h
      cases hl : reqLookup s.requests id with
      | none =>
        left
        unfold contract_receive_support_transfer_request
        simp [h, hl]
      | some r =>
        by_cases hm : a ∈ r.supporters
        · left
          rw [support_already a id s r ho hl hm]
        · right
          exact ⟨a, r, rfl, ho, rfl, hm, by rw [support_ok a id s r ho hl hm]⟩
  · left
    rw [support_not_owner sender id s (by simpa using h)]

theorem notSupport_not_owner (sender : Address) (id : Nat) (s : State)
    (h : is_owner sender s.owners = false) :
    contract_receive_not_support_transfer_request sender id s = (.error .NotOwner, s) := by
  unfold contract_receive_not_support_transfer_request
  simp [h]

theorem notSupport_state_cases (sender : Address) (id : Nat) (s : State) :
    (contract_receive_not_support_transfer_request sender id s).2 = s ∨
    ∃ a r, sender = .Account a ∧ a ∈ s.owners ∧
      reqLookup s.requests id = some r ∧ a ∈ r.supporters ∧
      (contract_receive_not_support_transfer_request sender id s).2 =
        { s with
            requests := reqInsert s.requests id
              { r with supporters := r.supporters.erase a } } := by
  by_cases h : is_owner sender s.owners = true
  · cases sender with
    | Contract c => rw [is_owner_contract] at h; exact absurd h (by simp)
    | Account a =>
      have ho : a ∈ s.owners := (is_owner_account_iff a s.owners).mp h
      cases hl : reqLookup s.requests id with
      | none =>
        left
        unfold contract_receive_not_support_transfer_request
        simp [h, hl]
      | some r =>
        by_cases hm : a ∈ r.supporters
        · right
          refine ⟨a, r, rfl, ho, rfl, hm, ?_⟩
          unfold contract_receive_not_support_transfer_request
          simp [h, hl, hm]
        · left
          unfold contract_receive_not_support_transfer_request
          simp [h, hl, hm]
  · left
    rw [notSupport_not_owner sender id s (by simpa using h)]

theorem execute_not_owner (sender : Address) (id : Nat)
    (transfer : AccountAddress → Amount → Except TransferError Unit) (s : State)
    (h : is_owner sender s.owners = false) :
    contract_receive_execute_transfer_request sender id transfer s =
      (.error .NotOwner, s) := by
  unfold contract_receive_execute_transfer_request
  simp [h]

theorem execute_reject (sender : Address) (id : Nat)
    (transfer : AccountAddress → Amount → Except TransferError Unit) (s : State)
    (r : TransferRequest) (ho : is_owner sender s.owners = true)
    (hl : reqLookup s.requests id = some r)
    (hg : usizeNot r.supporters.card ≠ TRANSFER_AGREEMENT_THRESHOLD) :
    contract_receive_execute_transfer_request sender id transfer s =
      (.error .RequestNotSupportedByAllOwners, s) := by
  unfold contract_receive_execute_transfer_request
  simp [ho, hl, hg]

theorem execute_past_guard (sender : Address) (id : Nat)
    (transfer : AccountAddress → Amount → Except TransferError Unit) (s : State)
    (r : TransferRequest) (ho : is_owner sender s.owners = true)
    (hl : reqLookup s.requests id = some r)
    (hg : usizeNot r.supporters.card = TRANSFER_AGREEMENT_THRESHOLD) :
    contract_receive_execute_transfer_request sender id transfer s =
      (match transfer r.target_account r.transfer_amount with
        | .ok _ => .ok ()
        | .error te => .error (Error.fromTransferError te),
       { s with requests := reqErase s.requests id }) := by
  unfold contract_receive_execute_transfer_request
  simp only [ho, if_pos rfl, hl, hg, if_true]
  cases transfer r.target_account r.transfer_amount <;> rfl

theorem execute_state_cases (sender : Address) (id : Nat)
    (transfer : AccountAddress → Amount → Except TransferError Unit) (s : State) :
    (contract_receive_execute_transfer_request sender id transfer s).2 = s ∨
    (contract_receive_execute_transfer_request sender id transfer s).2 =
      { s with requests := reqErase s.requests id } := by
  by_cases h : is_owner sender s.owners = true
  · cases hl : reqLookup s.requests id with
    | none =>
      left
      unfold contract_receive_execute_transfer_request
      simp [h, hl]
    | some r =>
      by_cases hg : usizeNot r.supporters.card = TRANSFER_AGREEMENT_THRESHOLD
      · right
        rw [execute_past_guard sender id transfer s r h hl hg]
      · left
        rw [execute_reject sender id transfer s r h hl hg]
  · left
    rw [execute_not_owner sender id transfer s (by simpa using h)]

theorem view_not_owner (sender : Address) (id : Nat) (s : State)
    (h : is_owner sender s.owners = false) :
    contract_receive_view_transfer_request sender id s = (.error .NotOwner, s) := by
  unfold contract_receive_view_transfer_request
  simp [h]

theorem view_state (sender : Address) (id : Nat) (s : State) :
    (contract_receive_view_transfer_request sender id s).2 = s := by
  unfold contract_receive_view_transfer_request
  by_cases h : is_owner sender s.owners = true
  · cases hl : reqLookup s.requests id with
    | none => simp [h, hl]
    | some r =>
      by_cases hg : usizeNot r.supporters.card = TRANSFER_AGREEMENT_THRESHOLD <;>
        simp [h, hl, hg]
  · simp [h]

/-! ### Bridges between `applyOp` and the entrypoints, and invariance facts -/

theorem applyOp_deposit (sender : Address) (s : State) :
    applyOp (.deposit sender) s = s := rfl

theorem applyOp_submit (sender : Address) (p : SubmitParams) (s : State) :
    applyOp (.submit sender p) s =
      (contract_receive_submit_transfer_request sender p s).2 := by
  cases hr : contract_receive_submit_transfer_request sender p s with
  | mk f t => cases f <;> simp [applyOp, runOp, hr]

theorem applyOp_support (sender : Address) (id : Nat) (s : State) :
    applyOp (.support sender id) s =
      (contract_receive_support_transfer_request sender id s).2 := by
  cases hr : contract_receive_support_transfer_request sender id s with
  | mk f t => cases f <;> simp [applyOp, runOp, hr]

theorem applyOp_notSupport (sender : Address) (id : Nat) (s : State) :
    applyOp (.notSupport sender id) s =
      (contract_receive_not_support_transfer_request sender id s).2 := by
  cases hr : contract_receive_not_support_transfer_request sender id s with
  | mk f t => cases f <;> simp [applyOp, runOp, hr]

theorem applyOp_execute (sender : Address) (id : Nat)
    (transfer : AccountAddress → Amount → Except TransferError Unit) (s : State) :
    applyOp (.execute sender id transfer) s =
      (contract_receive_execute_transfer_request sender id transfer s).2 := by
  cases hr : contract_receive_execute_transfer_request sender id transfer s with
  | mk f t => cases f <;> simp [applyOp, runOp, hr]

theorem applyOp_view (sender : Address) (id : Nat) (s : State) :
    applyOp (.view sender id) s = s := by
  cases hr : contract_receive_view_transfer_request sender id s with
  | mk f t =>
    have ht : t = s := by
      have hv := view_state sender id s
      rw [hr] at hv
      exact hv
    cases f <;> simp [applyOp, runOp, hr, ht]

/-- No entrypoint ever changes the owner set. -/
theorem applyOp_owners (op : Op) (s : State) : (applyOp op s).owners = s.owners := by
  cases op with
  | deposit sender => rw [applyOp_deposit]
  | submit sender p =>
    rw [applyOp_submit]
    rcases submit_cases sender p s with h | ⟨a, _, _, h⟩ <;> rw [h]
  | support sender id =>
    rw [applyOp_support]
    rcases support_state_cases sender id s with h | ⟨a, r, _, _, _, _, h⟩ <;> rw [h]
  | notSupport sender id =>
    rw [applyOp_notSupport]
    rcases notSupport_state_cases sender id s with h | ⟨a, r, _, _, _, _, h⟩ <;> rw [h]
  | execute sender id transfer =>
    rw [applyOp_execute]
    rcases execute_state_cases sender id transfer s with h | h <;> rw [h]
  | view sender id => rw [applyOp_view]

/-- Only a successful submission changes `last_request_id`. -/
theorem applyOp_last (op : Op) (s : State)
    (h : ∀ sender p, op ≠ .submit sender p) :
    (applyOp op s).last_request_id = s.last_request_id := by
  cases op with
  | deposit sender => rw [applyOp_deposit]
  | submit sender p => exact absurd rfl (h sender p)
  | support sender id =>
    rw [applyOp_support]
    rcases support_state_cases sender id s with h2 | ⟨a, r, _, _, _, _, h2⟩ <;> rw [h2]
  | notSupport sender id =>
    rw [applyOp_notSupport]
    rcases notSupport_state_cases sender id s with h2 | ⟨a, r, _, _, _, _, h2⟩ <;> rw [h2]
  | execute sender id transfer =>
    rw [applyOp_execute]
    rcases execute_state_cases sender id transfer s with h2 | h2 <;> rw [h2]
  | view sender id => rw [applyOp_view]

/-! ### Trace lemmas: monotonic ids -/

theorem runTrace_cons (op : Op) (rest : List Op) (s : State) :
    runTrace s (op :: rest) = runTrace (applyOp op s) rest := rfl

theorem submitIds_step_other (op : Op) (rest : List Op) (s : State)
    (h : ∀ sender p, op ≠ Op.submit sender p) :
    submitIds s (op :: rest) = submitIds (applyOp op s) rest := by
  cases op with
  | submit sender p => exact absurd rfl (h sender p)
  | deposit sender => simp [submitIds]
  | support sender id => simp [submitIds]
  | notSupport sender id => simp [submitIds]
  | execute sender id transfer => simp [submitIds]
  | view sender id => simp [submitIds]

/-- On any trace whose successful submissions do not overflow the 128-bit
counter, the returned ids are consecutive starting after the initial
counter value, and the counter counts the successful submissions. -/
theorem submitIds_spec (ops : List Op) : ∀ s : State,
    s.last_request_id + (submitIds s ops).length < U128_MOD →
    submitIds s ops = List.range' (s.last_request_id + 1) (submitIds s ops).length ∧
    (runTrace s ops).last_request_id =
      s.last_request_id + (submitIds s ops).length := by
  induction ops with
  | nil =>
    intro s _
    simp [submitIds, runTrace]
  | cons op rest ih =>
    intro s h
    by_cases hsub : ∃ sender p, op = Op.submit sender p
    · obtain ⟨sender, p, rfl⟩ := hsub
      rcases submit_cases sender p s with he | ⟨a, hacc, hmem, hok⟩
      · have h1 : submitIds s (Op.submit sender p :: rest) = submitIds s rest := by
          simp only [submitIds, he]
        have h2 : runTrace s (Op.submit sender p :: rest) = runTrace s rest := by
          simp only [runTrace_cons, applyOp_submit, he]
        rw [h1] at h ⊢
        rw [h2]
        exact ih s h
      · subst hacc
        have h1 : submitIds s (Op.submit (Address.Account a) p :: rest) =
            ((s.last_request_id + 1) % U128_MOD) ::
              submitIds
                ((contract_receive_submit_transfer_request (Address.Account a) p s).2)
                rest := by
          simp only [submitIds, hok]
        have h2 : runTrace s (Op.submit (Address.Account a) p :: rest) =
            runTrace
              ((contract_receive_submit_transfer_request (Address.Account a) p s).2)
              rest := by
          simp only [runTrace_cons, applyOp_submit]
        have hlast :
            ((contract_receive_submit_transfer_request (Address.Account a) p s).2).last_request_id =
              (s.last_request_id + 1) % U128_MOD := by
          rw [hok]
        rw [h1] at h ⊢
        rw [h2]
        simp only [List.length_cons] at h ⊢
        have hm : (s.last_request_id + 1) % U128_MOD = s.last_request_id + 1 :=
          Nat.mod_eq_of_lt (by omega)
        rw [hm] at hlast ⊢
        have hrec := ih
          ((contract_receive_submit_transfer_request (Address.Account a) p s).2)
          (by rw [hlast]; omega)
        obtain ⟨hA, hB⟩ := hrec
        rw [hlast] at hA hB
        constructor
        · rw [List.range'_succ, hA]
          simp [List.length_range']
        · rw [hB]
          omega
    · push_neg at hsub
      have h1 : submitIds s (op :: rest) = submitIds (applyOp op s) rest :=
        submitIds_step_other op rest s hsub
      have hlast : (applyOp op s).last_request_id = s.last_request_id :=
        applyOp_last op s hsub
      rw [h1] at h ⊢
      rw [runTrace_cons]
      have hrec := ih (applyOp op s) (by rw [hlast]; omega)
      obtain ⟨hA, hB⟩ := hrec
      rw [hlast] at hA hB
      exact ⟨hA, hB⟩

/-! ### Enumeration of the possible results of each entrypoint -/

theorem support_result_cases (sender : Address) (id : Nat) (s : State) :
    (contract_receive_support_transfer_request sender id s).1 = .ok () ∨
    (contract_receive_support_transfer_request sender id s).1 = .error .NotOwner ∨
    (contract_receive_support_transfer_request sender id s).1 = .error .RequestNotFound ∨
    (contract_receive_support_transfer_request sender id s).1 =
      .error .RequestAlreadySupported := by
  by_cases h : is_owner sender s.owners = true
  · cases sender with
    | Contract c => rw [is_owner_contract] at h; exact absurd h (by simp)
    | Account a =>
      have ho : a ∈ s.owners := (is_owner_account_iff a s.owners).mp h
      cases hl : reqLookup s.requests id with
      | none =>
        unfold contract_receive_support_transfer_request
        simp [h, hl]
      | some r =>
        by_cases hm : a ∈ r.supporters
        · rw [support_already a id s r ho hl hm]
          simp
        · rw [support_ok a id s r ho hl hm]
          simp
  · rw [support_not_owner sender id s (by simpa using h)]
    simp

theorem notSupport_result_cases (sender : Address) (id : Nat) (s : State) :
    (contract_receive_not_support_transfer_request sender id s).1 = .ok () ∨
    (contract_receive_not_support_transfer_request sender id s).1 = .error .NotOwner ∨
    (contract_receive_not_support_transfer_request sender id s).1 =
      .error .RequestNotFound ∨
    (contract_receive_not_support_transfer_request sender id s).1 =
      .error .RequestAlreadyNotSupported := by
  by_cases h : is_owner sender s.owners = true
  · cases sender with
    | Contract c => rw [is_owner_contract] at h; exact absurd h (by simp)
    | Account a =>
      cases hl : reqLookup s.requests id with
      | none =>
        unfold contract_receive_not_support_transfer_request
        simp [h, hl]
      | some r =>
        by_cases hm : a ∈ r.supporters <;>
          · unfold contract_receive_not_support_transfer_request
            simp [h, hl, hm]
  · rw [notSupport_not_owner sender id s (by simpa using h)]
    simp

theorem execute_result_cases (sender : Address) (id : Nat)
    (transfer : AccountAddress → Amount → Except TransferError Unit) (s : State) :
    (contract_receive_execute_transfer_request sender id transfer s).1 = .ok () ∨
    (contract_receive_execute_transfer_request sender id transfer s).1 =
      .error .NotOwner ∨
    (contract_receive_execute_transfer_request sender id transfer s).1 =
      .error .RequestNotFound ∨
    (contract_receive_execute_transfer_request sender id transfer s).1 =
      .error .RequestNotSupportedByAllOwners ∨
    (contract_receive_execute_transfer_request sender id transfer s).1 =
      .error .InvokeTransferInsufficientFunds ∨
    (contract_receive_execute_transfer_request sender id transfer s).1 =
      .error .InvokeTransferMissingAccount := by
  by_cases h : is_owner sender s.owners = true
  · cases hl : reqLookup s.requests id with
    | none =>
      unfold contract_receive_execute_transfer_request
      simp [h, hl]
    | some r =>
      by_cases hg : usizeNot r.supporters.card = TRANSFER_AGREEMENT_THRESHOLD
      · rw [execute_past_guard sender id transfer s r h hl hg]
        cases ht : transfer r.target_account r.transfer_amount with
        | ok u => simp
        | error te => cases te <;> simp [Error.fromTransferError]
      · rw [execute_reject sender id transfer s r h hl hg]
        simp
  · rw [execute_not_owner sender id transfer s (by simpa using h)]
    simp

theorem view_result_cases (sender : Address) (id : Nat) (s : State) :
    (∃ r, (contract_receive_view_transfer_request sender id s).1 = .ok r) ∨
    (contract_receive_view_transfer_request sender id s).1 = .error .NotOwner ∨
    (contract_receive_view_transfer_request sender id s).1 = .error .RequestNotFound ∨
    (contract_receive_view_transfer_request sender id s).1 =
      .error .RequestNotSupportedByAllOwners := by
  by_cases h : is_owner sender s.owners = true
  · cases hl : reqLookup s.requests id with
    | none =>
      unfold contract_receive_view_transfer_request
      simp [h, hl]
    | some r =>
      by_cases hg : usizeNot r.supporters.card = TRANSFER_AGREEMENT_THRESHOLD <;>
        · unfold contract_receive_view_transfer_request
          simp [h, hl, hg]
  · rw [view_not_owner sender id s (by simpa using h)]
    simp

/-! ### Key bounds of the request map -/

/-- Every key of the request map lies in `[1, last_request_id]`. -/
def keysBounded (s : State) : Prop :=
  ∀ k r, reqLookup s.requests k = some r → 1 ≤ k ∧ k ≤ s.last_request_id

theorem keysBounded_applyOp (op : Op) (s : State)
    (hb : keysBounded s)
    (hlt : s.last_request_id + (submitIds s [op]).length < U128_MOD) :
    keysBounded (applyOp op s) := by
  cases op with
  | deposit sender =>
    rw [applyOp_deposit]
    exact hb
  | submit sender p =>
    rw [applyOp_submit]
    rcases submit_cases sender p s with he | ⟨a, hacc, hmem, hok⟩
    · rw [he]
      exact hb
    · subst hacc
      have hlen : (submitIds s [Op.submit (Address.Account a) p]).length = 1 := by
        simp [submitIds, hok]
      rw [hlen] at hlt
      have hm : (s.last_request_id + 1) % U128_MOD = s.last_request_id + 1 :=
        Nat.mod_eq_of_lt (by omega)
      rw [hok]
      intro k r hk
      rw [reqLookup_insert] at hk
      by_cases hkk : (s.last_request_id + 1) % U128_MOD = k
      · rw [if_pos hkk] at hk
        rw [hm] at hkk
        simp only [hm]
        omega
      · rw [if_neg hkk] at hk
        have := hb k r hk
        simp only [hm]
        omega
  | support sender id =>
    rw [applyOp_support]
    rcases support_state_cases sender id s with h2 | ⟨a, r, _, _, hl, _, h2⟩
    · rw [h2]; exact hb
    · rw [h2]
      intro k r' hk
      rw [reqLookup_insert] at hk
      by_cases hkk : id = k
      · subst hkk
        exact hb id r hl
      · rw [if_neg hkk] at hk
        exact hb k r' hk
  | notSupport sender id =>
    rw [applyOp_notSupport]
    rcases notSupport_state_cases sender id s with h2 | ⟨a, r, _, _, hl, _, h2⟩
    · rw [h2]; exact hb
    · rw [h2]
      intro k r' hk
      rw [reqLookup_insert] at hk
      by_cases hkk : id = k
      · subst hkk
        exact hb id r hl
      · rw [if_neg hkk] at hk
        exact hb k r' hk
  | execute sender id transfer =>
    rw [applyOp_execute]
    rcases execute_state_cases sender id transfer s with h2 | h2
    · rw [h2]; exact hb
    · rw [h2]
      intro k r' hk
      rw [reqLookup_erase] at hk
      by_cases hkk : id = k
      · rw [if_pos hkk] at hk
        exact absurd hk (by simp)
      · rw [if_neg hkk] at hk
        exact hb k r' hk
  | view sender id =>
    rw [applyOp_view]
    exact hb

theorem keysBounded_runTrace (ops : List Op) : ∀ s : State,
    s.last_request_id + (submitIds s ops).length < U128_MOD →
    keysBounded s → keysBounded (runTrace s ops) := by
  induction ops with
  | nil =>
    intro s _ hb
    exact hb
  | cons op rest ih =>
    intro s h hb
    rw [runTrace_cons]
    by_cases hsub : ∃ sender p, op = Op.submit sender p
    · obtain ⟨sender, p, rfl⟩ := hsub
      rcases submit_cases sender p s with he | ⟨a, hacc, hmem, hok⟩
      · have h1 : submitIds s (Op.submit sender p :: rest) = submitIds s rest := by
          simp only [submitIds, he]
        have h2 : applyOp (Op.submit sender p) s = s := by
          rw [applyOp_submit, he]
        rw [h1] at h
        rw [h2]
        exact ih s h hb
      · subst hacc
        have h1 : submitIds s (Op.submit (Address.Account a) p :: rest) =
            ((s.last_request_id + 1) % U128_MOD) ::
              submitIds
                ((contract_receive_submit_transfer_request (Address.Account a) p s).2)
                rest := by
          simp only [submitIds, hok]
        rw [h1] at h
        simp only [List.length_cons] at h
        have hstep : keysBounded (applyOp (Op.submit (Address.Account a) p) s) := by
          apply keysBounded_applyOp _ _ hb
          have : (submitIds s [Op.submit (Address.Account a) p]).length = 1 := by
            simp [submitIds, hok]
          rw [this]
          omega
        have hlast :
            ((contract_receive_submit_transfer_request (Address.Account a) p s).2).last_request_id =
              (s.last_request_id + 1) % U128_MOD := by
          rw [hok]
        have hm : (s.last_request_id + 1) % U128_MOD = s.last_request_id + 1 :=
          Nat.mod_eq_of_lt (by omega)
        rw [applyOp_submit] at hstep ⊢
        apply ih _ _ hstep
        rw [hlast, hm]
        omega
    · push_neg at hsub
      have h1 : submitIds s (op :: rest) = submitIds (applyOp op s) rest :=
        submitIds_step_other op rest s hsub
      have hlast : (applyOp op s).last_request_id = s.last_request_id :=
        applyOp_last op s hsub
      rw [h1] at h
      have hstep : keysBounded (applyOp op s) := by
        apply keysBounded_applyOp _ _ hb
        have h0 : submitIds s [op] = [] := by
          rw [submitIds_step_other op [] s hsub]
          rfl
        rw [h0]
        simpa using (by omega : s.last_request_id < U128_MOD)
      apply ih _ _ hstep
      rw [hlast]
      omega

/-- No entrypoint ever reports `RequestAlreadyExists`. -/
theorem runOp_no_RequestAlreadyExists (op : Op) (s : State) :
    (runOp op s).1 ≠ some Error.RequestAlreadyExists := by
  cases op with
  | deposit sender =>
    simp [runOp, contract_receive_deposit]
  | submit sender p =>
    rcases submit_cases sender p s with he | ⟨a, hacc, hmem, hok⟩
    · simp [runOp, he]
    · simp [runOp, hok]
  | support sender id =>
    rcases support_result_cases sender id s with h | h | h | h <;>
      · cases hr : contract_receive_support_transfer_request sender id s with
        | mk f t =>
          rw [hr] at h
          simp at h
          simp [runOp, hr, h]
  | notSupport sender id =>
    rcases notSupport_result_cases sender id s with h | h | h | h <;>
      · cases hr : contract_receive_not_support_transfer_request sender id s with
        | mk f t =>
          rw [hr] at h
          simp at h
          simp [runOp, hr, h]
  | execute sender id transfer =>
    rcases execute_result_cases sender id transfer s with h | h | h | h | h | h <;>
      · cases hr : contract_receive_execute_transfer_request sender id transfer s with
        | mk f t =>
          rw [hr] at h
          simp at h
          simp [runOp, hr, h]
  | view sender id =>
    rcases view_result_cases sender id s with ⟨r, h⟩ | h | h | h <;>
      · cases hr : contract_receive_view_transfer_request sender id s with
        | mk f t =>
          rw [hr] at h
          simp at h
          simp [runOp, hr, h]

/-! ### Concrete overflow traces: 2^128 consecutive submissions -/

/-- Fixed submission parameters for the concrete traces. -/
def exSubmitParams : SubmitParams := { transfer_amount := 10, target_account := 5 }

/-- A trace of `n` submissions, all by owner `0`. -/
def allSubmits (n : Nat) : List Op :=
  List.replicate n (Op.submit (Address.Account 0) exSubmitParams)

/-- The state produced by a successful `contract_init` with owners 0, 1, 2. -/
def initialState : State :=
  { owners := {0, 1, 2}, last_request_id := 0, requests := [] }

theorem allSubmits_succ (n : Nat) :
    allSubmits (n + 1) = Op.submit (Address.Account 0) exSubmitParams :: allSubmits n := by
  simp [allSubmits, List.replicate_succ]

theorem allSubmits_spec (n : Nat) : ∀ s : State,
    0 ∈ s.owners → s.last_request_id < U128_MOD →
    (runTrace s (allSubmits n)).last_request_id =
      (s.last_request_id + n) % U128_MOD ∧
    submitIds s (allSubmits n) =
      (List.range n).map (fun k => (s.last_request_id + k + 1) % U128_MOD) := by
  induction n with
  | zero =>
    intro s h0 hlt
    simp [allSubmits, runTrace, submitIds, Nat.mod_eq_of_lt hlt]
  | succ n ih =>
    intro s h0 hlt
    have hok := submit_ok 0 exSubmitParams s h0
    rw [allSubmits_succ]
    have hσlast :
        ((contract_receive_submit_transfer_request (Address.Account 0) exSubmitParams s).2).last_request_id =
          (s.last_request_id + 1) % U128_MOD := by
      rw [hok]
    have hσown :
        ((contract_receive_submit_transfer_request (Address.Account 0) exSubmitParams s).2).owners =
          s.owners := by
      rw [hok]
    have hMpos : 0 < U128_MOD := by norm_num [U128_MOD]
    have hσlt :
        ((contract_receive_submit_transfer_request (Address.Account 0) exSubmitParams s).2).last_request_id <
          U128_MOD := by
      rw [hσlast]
      exact Nat.mod_lt _ hMpos
    obtain ⟨ih1, ih2⟩ := ih
      ((contract_receive_submit_transfer_request (Address.Account 0) exSubmitParams s).2)
      (by rw [hσown]; exact h0) hσlt
    constructor
    · rw [runTrace_cons, applyOp_submit, ih1, hσlast, Nat.mod_add_mod]
      have harg : s.last_request_id + 1 + n = s.last_request_id + (n + 1) := by omega
      rw [harg]
    · have h1 : submitIds s
          (Op.submit (Address.Account 0) exSubmitParams :: allSubmits n) =
          ((s.last_request_id + 1) % U128_MOD) ::
            submitIds
              ((contract_receive_submit_transfer_request (Address.Account 0) exSubmitParams s).2)
              (allSubmits n) := by
        simp only [submitIds, hok]
      rw [h1, ih2, hσlast, List.range_succ_eq_map]
      simp only [List.map_cons, List.map_map, Nat.add_zero]
      congr 1
      apply List.map_congr_left
      intro k _
      simp only [Function.comp]
      rw [add_assoc ((s.last_request_id + 1) % U128_MOD) k 1, Nat.mod_add_mod]
      have harg : s.last_request_id + 1 + (k + 1) = s.last_request_id + (k + 1) + 1 := by
        omega
      rw [harg]

theorem submit_preserves_mem (sender : Address) (p : SubmitParams) (s : State)
    (k : Nat) (h : reqLookup s.requests k ≠ none) :
    reqLookup (applyOp (Op.submit sender p) s).requests k ≠ none := by
  rw [applyOp_submit]
  rcases submit_cases sender p s with he | ⟨a, hacc, hmem, hok⟩
  · rw [he]
    exact h
  · rw [hok]
    simp only
    rw [reqLookup_insert]
    by_cases hkk : (s.last_request_id + 1) % U128_MOD = k
    · rw [if_pos hkk]
      simp
    · rw [if_neg hkk]
      exact h

theorem allSubmits_preserves_mem (n : Nat) : ∀ s : State, ∀ k : Nat,
    reqLookup s.requests k ≠ none →
    reqLookup (runTrace s (allSubmits n)).requests k ≠ none := by
  induction n with
  | zero =>
    intro s k h
    simpa [allSubmits, runTrace] using h
  | succ n ih =>
    intro s k h
    rw [allSubmits_succ, runTrace_cons]
    exact ih _ k (submit_preserves_mem _ _ s k h)

/-! ### The supporters-are-owners invariant -/

/-- Every stored request has its supporters inside the owner set. -/
def supportersSubset (s : State) : Prop :=
  ∀ k r, reqLookup s.requests k = some r → r.supporters ⊆ s.owners

theorem supportersSubset_applyOp (op : Op) (s : State)
    (h : supportersSubset s) : supportersSubset (applyOp op s) := by
  cases op with
  | deposit sender =>
    rw [applyOp_deposit]
    exact h
  | submit sender p =>
    rw [applyOp_submit]
    rcases submit_cases sender p s with he | ⟨a, hacc, hmem, hok⟩
    · rw [he]
      exact h
    · rw [hok]
      intro k r hk
      simp only at hk ⊢
      rw [reqLookup_insert] at hk
      by_cases hkk : (s.last_request_id + 1) % U128_MOD = k
      · rw [if_pos hkk] at hk
        cases hk
        simpa using hmem
      · rw [if_neg hkk] at hk
        exact h k r hk
  | support sender id =>
    rw [applyOp_support]
    rcases support_state_cases sender id s with h2 | ⟨a, r, _, ha, hl, _, h2⟩
    · rw [h2]
      exact h
    · rw [h2]
      intro k r' hk
      simp only at hk ⊢
      rw [reqLookup_insert] at hk
      by_cases hkk : id = k
      · rw [if_pos hkk] at hk
        cases hk
        exact Finset.insert_subset ha (h id r (hkk ▸ hl))
      · rw [if_neg hkk] at hk
        exact h k r' hk
  | notSupport sender id =>
    rw [applyOp_notSupport]
    rcases notSupport_state_cases sender id s with h2 | ⟨a, r, _, ha, hl, _, h2⟩
    · rw [h2]
      exact h
    · rw [h2]
      intro k r' hk
      simp only at hk ⊢
      rw [reqLookup_insert] at hk
      by_cases hkk : id = k
      · rw [if_pos hkk] at hk
        cases hk
        exact (Finset.erase_subset a r.supporters).trans (h id r (hkk ▸ hl))
      · rw [if_neg hkk] at hk
        exact h k r' hk
  | execute sender id transfer =>
    rw [applyOp_execute]
    rcases execute_state_cases sender id transfer s with h2 | h2
    · rw [h2]
      exact h
    · rw [h2]
      intro k r' hk
      simp only at hk ⊢
      rw [reqLookup_erase] at hk
      by_cases hkk : id = k
      · rw [if_pos hkk] at hk
        exact absurd hk (by simp)
      · rw [if_neg hkk] at hk
        exact h k r' hk
  | view sender id =>
    rw [applyOp_view]
    exact h

theorem supportersSubset_reachable (s : State) (h : Reachable s) :
    supportersSubset s := by
  induction h with
  | init params s hinit =>
    unfold contract_init at hinit
    by_cases hc : params.owners.card = TRANSFER_AGREEMENT_THRESHOLD
    · rw [if_pos hc] at hinit
      cases hinit
      intro k r hk
      exact absurd hk (by simp [reqLookup])
    · rw [if_neg hc] at hinit
      cases hinit
  | step op s _ ih =>
    exact supportersSubset_applyOp op s ih

/-! ### Concrete example states and oracles used by the claims -/

/-- Owners 0, 1, 2; request 1 supported by all three owners. -/
def exFullState : State :=
  { owners := {0, 1, 2}
    last_request_id := 1
    requests := [(1, { transfer_amount := 10, target_account := 5,
                       supporters := {0, 1, 2} })] }

/-- A transfer oracle that always succeeds. -/
def okTransfer : AccountAddress → Amount → Except TransferError Unit :=
  fun _ _ => .ok ()

/-- A transfer oracle that always fails with `AmountTooLarge`. -/
def failTransfer : AccountAddress → Amount → Except TransferError Unit :=
  fun _ _ => .error .AmountTooLarge

/-- A request whose supporter count makes the bitwise-negation guard pass. -/
def exBigRequest : TransferRequest :=
  { transfer_amount := 10, target_account := 5,
    supporters := Finset.range (USIZE_MOD - 4) }

/-- A state holding `exBigRequest` under id 1. -/
def exBigState : State :=
  { owners := {0, 1, 2}, last_request_id := 1, requests := [(1, exBigRequest)] }

/-- The state after one submission by owner 0 from `initialState`. -/
def exAfterSubmit : State :=
  applyOp (Op.submit (.Account 0) exSubmitParams) initialState

/-! ### The claims -/

/-- C1: the spec requires that executing a request with exactly THRESHOLD
(= 3) distinct owner supporters succeeds and removes the request.  The code
violates this: the guard `!matching_request.supporters.len() == THRESHOLD`
negates the length bitwise, so with 3 supporters the condition is false and
the call is rejected with `RequestNotSupportedByAllOwners`, leaving the
request stored.  This theorem evaluates the code at the failing input. -/
theorem C1_execute_full_support_rejected :
    ({0, 1, 2} : Finset AccountAddress).card = TRANSFER_AGREEMENT_THRESHOLD ∧
    reqLookup exFullState.requests 1 =
      some { transfer_amount := 10, target_account := 5, supporters := {0, 1, 2} } ∧
    is_owner (.Account 0) exFullState.owners = true ∧
    contract_receive_execute_transfer_request (.Account 0) 1 okTransfer exFullState =
      (.error .RequestNotSupportedByAllOwners, exFullState) := by
  refine ⟨by decide, by decide, by decide, by decide⟩

/-- C2: the spec requires that viewing a request with exactly THRESHOLD
supporters returns a copy of the stored record.  The code violates this:
the view guard uses the same bitwise negation as execution, so the call is
rejected with `RequestNotSupportedByAllOwners` instead of returning the
record.  This theorem evaluates the code at the failing input. -/
theorem C2_view_full_support_rejected :
    ({0, 1, 2} : Finset AccountAddress).card = TRANSFER_AGREEMENT_THRESHOLD ∧
    reqLookup exFullState.requests 1 =
      some { transfer_amount := 10, target_account := 5, supporters := {0, 1, 2} } ∧
    is_owner (.Account 0) exFullState.owners = true ∧
    contract_receive_view_transfer_request (.Account 0) 1 exFullState =
      (.error .RequestNotSupportedByAllOwners, exFullState) := by
  refine ⟨by decide, by decide, by decide, by decide⟩

/-- C4: in `execute_transfer_request` the request is removed from the map
before the transfer executor is invoked with the request's target and
amount; hence if the executor fails, the mapped error is returned while the
request remains removed from the map. -/
theorem C4_remove_before_invoke (sender : Address) (id : Nat) (s : State)
    (r : TransferRequest)
    (transfer : AccountAddress → Amount → Except TransferError Unit)
    (te : TransferError)
    (ho : is_owner sender s.owners = true)
    (hl : reqLookup s.requests id = some r)
    (hg : usizeNot r.supporters.card = TRANSFER_AGREEMENT_THRESHOLD)
    (ht : transfer r.target_account r.transfer_amount = .error te) :
    contract_receive_execute_transfer_request sender id transfer s =
      (.error (Error.fromTransferError te),
        { s with requests := reqErase s.requests id }) ∧
    reqLookup
      ((contract_receive_execute_transfer_request sender id transfer s).2).requests
      id = none := by
  have h := execute_past_guard sender id transfer s r ho hl hg
  rw [ht] at h
  refine ⟨h, ?_⟩
  rw [h]
  simp only
  rw [reqLookup_erase, if_pos rfl]

theorem C4_remove_before_invoke_witness :
    is_owner (.Account 0) exBigState.owners = true ∧
    reqLookup exBigState.requests 1 = some exBigRequest ∧
    usizeNot exBigRequest.supporters.card = TRANSFER_AGREEMENT_THRESHOLD ∧
    failTransfer exBigRequest.target_account exBigRequest.transfer_amount =
      .error .AmountTooLarge ∧
    (contract_receive_execute_transfer_request (.Account 0) 1 failTransfer exBigState =
        (.error (Error.fromTransferError .AmountTooLarge),
          { exBigState with requests := reqErase exBigState.requests 1 }) ∧
      reqLookup
        ((contract_receive_execute_transfer_request (.Account 0) 1 failTransfer exBigState).2).requests
        1 = none) := by
  have hg : usizeNot exBigRequest.supporters.card = TRANSFER_AGREEMENT_THRESHOLD := by
    show usizeNot (Finset.range (USIZE_MOD - 4)).card = TRANSFER_AGREEMENT_THRESHOLD
    rw [Finset.card_range]
    norm_num [usizeNot, USIZE_MOD, TRANSFER_AGREEMENT_THRESHOLD]
  exact ⟨by decide, rfl, hg, rfl,
    C4_remove_before_invoke (.Account 0) 1 exBigState exBigRequest failTransfer
      .AmountTooLarge (by decide) rfl hg rfl⟩

/-- C5: `contract_init` succeeds exactly when the supplied owner set has
THRESHOLD distinct members, producing the fresh state; any other
cardinality fails with `InsufficientOwners` and produces no state. -/
theorem C5_init_owner_cardinality (params : InitParams) :
    (params.owners.card = TRANSFER_AGREEMENT_THRESHOLD →
      contract_init params =
        .ok { owners := params.owners, last_request_id := 0, requests := [] }) ∧
    (params.owners.card ≠ TRANSFER_AGREEMENT_THRESHOLD →
      contract_init params = .error .InsufficientOwners) := by
  constructor <;> intro h <;> simp [contract_init, h]

theorem C5_init_owner_cardinality_witness :
    (({0, 1, 2} : Finset AccountAddress).card = TRANSFER_AGREEMENT_THRESHOLD ∧
      contract_init ⟨{0, 1, 2}⟩ =
        .ok { owners := {0, 1, 2}, last_request_id := 0, requests := [] }) ∧
    (({0, 1} : Finset AccountAddress).card ≠ TRANSFER_AGREEMENT_THRESHOLD ∧
      contract_init ⟨{0, 1}⟩ = .error .InsufficientOwners) :=
  ⟨⟨by decide, (C5_init_owner_cardinality ⟨{0, 1, 2}⟩).1 (by decide)⟩,
   ⟨by decide, (C5_init_owner_cardinality ⟨{0, 1}⟩).2 (by decide)⟩⟩

/-- C3 (amended): on a freshly initialized ledger, as long as fewer than
`2 ^ 128` submissions succeed (so the `u128` counter cannot wrap), the ids
returned by the successful submissions are `1, 2, …, N` in call order —
regardless of interleaved deposit / support / retract / execute / view
calls — hence strictly increasing and never reused. -/
theorem C3_monotonic_ids (params : InitParams) (s0 : State) (ops : List Op)
    (hinit : contract_init params = .ok s0)
    (hn : (submitIds s0 ops).length < U128_MOD) :
    submitIds s0 ops = List.range' 1 (submitIds s0 ops).length := by
  have hlast : s0.last_request_id = 0 := by
    unfold contract_init at hinit
    by_cases hc : params.owners.card = TRANSFER_AGREEMENT_THRESHOLD
    · rw [if_pos hc] at hinit
      cases hinit
      rfl
    · rw [if_neg hc] at hinit
      cases hinit
  have h := (submitIds_spec ops s0 (by rw [hlast]; simpa using hn)).1
  rw [hlast] at h
  simpa using h

/-- C3 counterexample: the claim as stated quantifies over every number `N`
of successful submissions.  Starting from the freshly initialized ledger
and running `2 ^ 128` successful submissions, the id returned by submission
number `2 ^ 128` is `0` (the `u128` counter wraps), not `2 ^ 128`. -/
theorem C3_counterexample :
    contract_init ⟨{0, 1, 2}⟩ = .ok initialState ∧
    (submitIds initialState (allSubmits (2 ^ 128))).length = 2 ^ 128 ∧
    (submitIds initialState (allSubmits (2 ^ 128)))[2 ^ 128 - 1]? = some 0 ∧
    (0 : Nat) ≠ 2 ^ 128 := by
  have hids := (allSubmits_spec (2 ^ 128) initialState (by decide)
    (by norm_num [initialState, U128_MOD])).2
  have hids' : submitIds initialState (allSubmits (2 ^ 128)) =
      (List.range (2 ^ 128)).map (fun k => (k + 1) % U128_MOD) := by
    rw [hids]
    apply List.map_congr_left
    intro k _
    norm_num [initialState]
  refine ⟨by decide, ?_, ?_, by norm_num⟩
  · rw [hids']
    simp
  · rw [hids']
    rw [List.getElem?_map,
      List.getElem?_range (by norm_num : 2 ^ 128 - 1 < 2 ^ 128)]
    norm_num [U128_MOD]

theorem C3_monotonic_ids_witness :
    contract_init ⟨{0, 1, 2}⟩ = .ok initialState ∧
    (submitIds initialState
      [Op.submit (.Account 0) exSubmitParams, Op.deposit (.Account 7),
       Op.submit (.Account 1) exSubmitParams]).length < U128_MOD ∧
    submitIds initialState
      [Op.submit (.Account 0) exSubmitParams, Op.deposit (.Account 7),
       Op.submit (.Account 1) exSubmitParams] =
      List.range' 1 (submitIds initialState
        [Op.submit (.Account 0) exSubmitParams, Op.deposit (.Account 7),
         Op.submit (.Account 1) exSubmitParams]).length :=
  ⟨by decide, by decide,
   C3_monotonic_ids ⟨{0, 1, 2}⟩ initialState
     [Op.submit (.Account 0) exSubmitParams, Op.deposit (.Account 7),
      Op.submit (.Account 1) exSubmitParams] (by decide) (by decide)⟩

/-- C6: in every reachable ledger state, the supporters set of every stored
request is a subset of the owner set. -/
theorem C6_supporters_subset_owners (s : State) (h : Reachable s) (id : Nat)
    (r : TransferRequest) (hl : reqLookup s.requests id = some r) :
    r.supporters ⊆ s.owners :=
  supportersSubset_reachable s h id r hl

theorem C6_supporters_subset_owners_witness :
    reqLookup exAfterSubmit.requests 1 =
      some { transfer_amount := 10, target_account := 5, supporters := {0} } ∧
    ({ transfer_amount := 10, target_account := 5,
       supporters := {0} } : TransferRequest).supporters ⊆ exAfterSubmit.owners :=
  ⟨by decide,
   C6_supporters_subset_owners exAfterSubmit
     (Reachable.step (Op.submit (.Account 0) exSubmitParams) initialState
       (Reachable.init ⟨{0, 1, 2}⟩ initialState (by decide)))
     1 { transfer_amount := 10, target_account := 5, supporters := {0} }
     (by decide)⟩

/-- The state after owner 1 also supports request 1 in `exAfterSubmit`. -/
def exSupported : State :=
  (contract_receive_support_transfer_request (.Account 1) 1 exAfterSubmit).2

/-- C7: if an owner is already in a stored request's supporters set, another
`support_transfer_request` by that owner on that id fails with
`RequestAlreadySupported` and leaves the state unchanged; in particular,
after a successful support call, repeating it fails. -/
theorem C7_support_idempotence_guard :
    (∀ (s : State) (a : AccountAddress) (id : Nat) (r : TransferRequest),
      a ∈ s.owners → reqLookup s.requests id = some r → a ∈ r.supporters →
      contract_receive_support_transfer_request (.Account a) id s =
        (.error .RequestAlreadySupported, s)) ∧
    (∀ (s s₁ : State) (a : AccountAddress) (id : Nat),
      contract_receive_support_transfer_request (.Account a) id s = (.ok (), s₁) →
      contract_receive_support_transfer_request (.Account a) id s₁ =
        (.error .RequestAlreadySupported, s₁)) := by
  constructor
  · intro s a id r ha hl hm
    exact support_already a id s r ha hl hm
  · intro s s₁ a id hok2
    by_cases h : is_owner (.Account a) s.owners = true
    · have ho : a ∈ s.owners := (is_owner_account_iff a s.owners).mp h
      cases hl : reqLookup s.requests id with
      | none =>
        unfold contract_receive_support_transfer_request at hok2
        simp [h, hl] at hok2
      | some r =>
        by_cases hm : a ∈ r.supporters
        · rw [support_already a id s r ho hl hm] at hok2
          simp at hok2
        · rw [support_ok a id s r ho hl hm] at hok2
          have hs₁ :
              { s with
                  requests := reqInsert s.requests id
                    { r with supporters := insert a r.supporters } } = s₁ := by
            have hsnd := congrArg Prod.snd hok2
            simpa using hsnd
          rw [← hs₁]
          apply support_already a id _ { r with supporters := insert a r.supporters }
          · exact ho
          · show reqLookup (reqInsert s.requests id
              { r with supporters := insert a r.supporters }) id = _
            rw [reqLookup_insert, if_pos rfl]
          · exact Finset.mem_insert_self a r.supporters
    · rw [support_not_owner _ id s (by simpa using h)] at hok2
      simp at hok2

theorem C7_support_idempotence_guard_witness :
    (0 ∈ exAfterSubmit.owners ∧
      reqLookup exAfterSubmit.requests 1 =
        some { transfer_amount := 10, target_account := 5, supporters := {0} } ∧
      0 ∈ ({0} : Finset AccountAddress) ∧
      contract_receive_support_transfer_request (.Account 0) 1 exAfterSubmit =
        (.error .RequestAlreadySupported, exAfterSubmit)) ∧
    (contract_receive_support_transfer_request (.Account 1) 1 exAfterSubmit =
        (.ok (), exSupported) ∧
      contract_receive_support_transfer_request (.Account 1) 1 exSupported =
        (.error .RequestAlreadySupported, exSupported)) :=
  ⟨⟨by decide, by decide, by decide,
    C7_support_idempotence_guard.1 exAfterSubmit 0 1
      { transfer_amount := 10, target_account := 5, supporters := {0} }
      (by decide) (by decide) (by decide)⟩,
   ⟨by decide,
    C7_support_idempotence_guard.2 exAfterSubmit exSupported 1 1 (by decide)⟩⟩

/-- C8 counterexample: `deposit` called by a non-owner succeeds rather than
failing with `NotOwner`, so the claim is false for the deposit operation. -/
theorem C8_counterexample :
    is_owner (.Account 7) exFullState.owners = false ∧
    contract_receive_deposit (.Account 7) exFullState = (.ok (), exFullState) :=
  ⟨by decide, rfl⟩

/-- C8 (amended): every operation except `deposit` — submit, support,
retract, execute and view — called by an identity that is not an owner
fails with `NotOwner` and the state is unchanged; `deposit` succeeds for
any caller. -/
theorem C8_nonowner_rejection (sender : Address) (s : State) (p : SubmitParams)
    (id : Nat) (transfer : AccountAddress → Amount → Except TransferError Unit)
    (h : is_owner sender s.owners = false) :
    contract_receive_submit_transfer_request sender p s = (.error .NotOwner, s) ∧
    contract_receive_support_transfer_request sender id s = (.error .NotOwner, s) ∧
    contract_receive_not_support_transfer_request sender id s = (.error .NotOwner, s) ∧
    contract_receive_execute_transfer_request sender id transfer s =
      (.error .NotOwner, s) ∧
    contract_receive_view_transfer_request sender id s = (.error .NotOwner, s) ∧
    contract_receive_deposit sender s = (.ok (), s) :=
  ⟨submit_not_owner sender p s h, support_not_owner sender id s h,
   notSupport_not_owner sender id s h, execute_not_owner sender id transfer s h,
   view_not_owner sender id s h, rfl⟩

theorem C8_nonowner_rejection_witness :
    is_owner (.Account 7) exFullState.owners = false ∧
    (contract_receive_submit_transfer_request (.Account 7) exSubmitParams exFullState =
        (.error .NotOwner, exFullState) ∧
      contract_receive_support_transfer_request (.Account 7) 1 exFullState =
        (.error .NotOwner, exFullState) ∧
      contract_receive_not_support_transfer_request (.Account 7) 1 exFullState =
        (.error .NotOwner, exFullState) ∧
      contract_receive_execute_transfer_request (.Account 7) 1 okTransfer exFullState =
        (.error .NotOwner, exFullState) ∧
      contract_receive_view_transfer_request (.Account 7) 1 exFullState =
        (.error .NotOwner, exFullState) ∧
      contract_receive_deposit (.Account 7) exFullState = (.ok (), exFullState)) :=
  ⟨by decide,
   C8_nonowner_rejection (.Account 7) exFullState exSubmitParams 1 okTransfer (by decide)⟩

/-- C9 (amended): from a successful initialization, along any trace in which
at most `2 ^ 128 - 2` submissions succeed, every key of the request map lies
in `[1, last_request_id]` and the id the next submission would allocate is
not yet a key, so submit's insert never overwrites; independently, no
entrypoint ever reports `RequestAlreadyExists` in any state. -/
theorem C9_fresh_ids (params : InitParams) (s0 : State) (ops : List Op)
    (hinit : contract_init params = .ok s0)
    (hn : (submitIds s0 ops).length ≤ U128_MOD - 2) :
    (∀ k r, reqLookup (runTrace s0 ops).requests k = some r →
      1 ≤ k ∧ k ≤ (runTrace s0 ops).last_request_id) ∧
    reqLookup (runTrace s0 ops).requests
      (((runTrace s0 ops).last_request_id + 1) % U128_MOD) = none ∧
    (∀ (op : Op) (s : State), (runOp op s).1 ≠ some Error.RequestAlreadyExists) := by
  have hM : 2 ≤ U128_MOD := by norm_num [U128_MOD]
  have hs0 : s0.last_request_id = 0 ∧ s0.requests = [] := by
    unfold contract_init at hinit
    by_cases hc : params.owners.card = TRANSFER_AGREEMENT_THRESHOLD
    · rw [if_pos hc] at hinit
      cases hinit
      exact ⟨rfl, rfl⟩
    · rw [if_neg hc] at hinit
      cases hinit
  obtain ⟨hl0, hreq0⟩ := hs0
  have hlt : s0.last_request_id + (submitIds s0 ops).length < U128_MOD := by
    rw [hl0]
    omega
  have hb0 : keysBounded s0 := by
    intro k r hk
    rw [hreq0] at hk
    exact absurd hk (by simp [reqLookup])
  have hb := keysBounded_runTrace ops s0 hlt hb0
  have hfinal := (submitIds_spec ops s0 hlt).2
  rw [hl0] at hfinal
  simp only [Nat.zero_add] at hfinal
  have hmod : ((runTrace s0 ops).last_request_id + 1) % U128_MOD =
      (runTrace s0 ops).last_request_id + 1 := by
    apply Nat.mod_eq_of_lt
    rw [hfinal]
    omega
  refine ⟨fun k r hk => hb k r hk, ?_, runOp_no_RequestAlreadyExists⟩
  rw [hmod]
  cases hknone : reqLookup (runTrace s0 ops).requests
      ((runTrace s0 ops).last_request_id + 1) with
  | none => rfl
  | some r =>
    have := hb _ r hknone
    omega

/-- C9 counterexample: after `2 ^ 128` successful submissions from the fresh
ledger the wrapped `u128` counter is back to 0, the id the next submission
would allocate is 1, and 1 is still a key of the request map — so the id is
already a key and the insert would overwrite the stored request. -/
theorem C9_counterexample :
    ((runTrace initialState (allSubmits (2 ^ 128))).last_request_id + 1) % U128_MOD = 1 ∧
    reqLookup (runTrace initialState (allSubmits (2 ^ 128))).requests 1 ≠ none := by
  have hlast := (allSubmits_spec (2 ^ 128) initialState (by decide)
    (by norm_num [initialState, U128_MOD])).1
  constructor
  · rw [hlast]
    norm_num [initialState, U128_MOD]
  · have hsplit : (2 : Nat) ^ 128 = (2 ^ 128 - 1) + 1 := by norm_num
    rw [hsplit, allSubmits_succ, runTrace_cons]
    apply allSubmits_preserves_mem
    show reqLookup exAfterSubmit.requests 1 ≠ none
    decide

theorem C9_fresh_ids_witness :
    contract_init ⟨{0, 1, 2}⟩ = .ok initialState ∧
    (submitIds initialState [Op.submit (.Account 0) exSubmitParams]).length ≤
      U128_MOD - 2 ∧
    (1 ≤ 1 ∧
      1 ≤ (runTrace initialState [Op.submit (.Account 0) exSubmitParams]).last_request_id) ∧
    reqLookup (runTrace initialState [Op.submit (.Account 0) exSubmitParams]).requests
      (((runTrace initialState
          [Op.submit (.Account 0) exSubmitParams]).last_request_id + 1) % U128_MOD) =
      none :=
  ⟨by decide, by decide,
   (C9_fresh_ids ⟨{0, 1, 2}⟩ initialState [Op.submit (.Account 0) exSubmitParams]
      (by decide) (by decide)).1 1
     { transfer_amount := 10, target_account := 5, supporters := {0} } (by decide),
   (C9_fresh_ids ⟨{0, 1, 2}⟩ initialState [Op.submit (.Account 0) exSubmitParams]
      (by decide) (by decide)).2.1⟩

/-- C10 counterexample: `deposit` called by a contract principal succeeds,
so not every entrypoint rejects contract callers with `NotOwner`. -/
theorem C10_counterexample :
    contract_receive_deposit (.Contract 0) exFullState = (.ok (), exFullState) ∧
    (Except.ok () : Except Error Unit) ≠ .error .NotOwner :=
  ⟨rfl, by decide⟩

/-- C10 (amended): a contract principal is rejected with `NotOwner` by every
entrypoint except `deposit`, which accepts any caller (the owner check uses
`matches_account`, which is false for contract addresses, and precedes the
sender-kind match); and no entrypoint ever returns `ContractSender`, for
any caller and state. -/
theorem C10_contract_sender_unreachable (c : Nat) (sender : Address) (s : State)
    (p : SubmitParams) (id : Nat)
    (transfer : AccountAddress → Amount → Except TransferError Unit) :
    (contract_receive_submit_transfer_request (.Contract c) p s =
        (.error .NotOwner, s) ∧
      contract_receive_support_transfer_request (.Contract c) id s =
        (.error .NotOwner, s) ∧
      contract_receive_not_support_transfer_request (.Contract c) id s =
        (.error .NotOwner, s) ∧
      contract_receive_execute_transfer_request (.Contract c) id transfer s =
        (.error .NotOwner, s) ∧
      contract_receive_view_transfer_request (.Contract c) id s =
        (.error .NotOwner, s) ∧
      contract_receive_deposit (.Contract c) s = (.ok (), s)) ∧
    ((contract_receive_deposit sender s).1 ≠ .error .ContractSender ∧
      (contract_receive_submit_transfer_request sender p s).1 ≠ .error .ContractSender ∧
      (contract_receive_support_transfer_request sender id s).1 ≠ .error .ContractSender ∧
      (contract_receive_not_support_transfer_request sender id s).1 ≠
        .error .ContractSender ∧
      (contract_receive_execute_transfer_request sender id transfer s).1 ≠
        .error .ContractSender ∧
      (contract_receive_view_transfer_request sender id s).1 ≠ .error .ContractSender) := by
  have hco := is_owner_contract c s.owners
  refine ⟨⟨submit_not_owner _ p s hco, support_not_owner _ id s hco,
    notSupport_not_owner _ id s hco, execute_not_owner _ id transfer s hco,
    view_not_owner _ id s hco, rfl⟩, ?_, ?_, ?_, ?_, ?_, ?_⟩
  · simp [contract_receive_deposit]
  · rcases submit_cases sender p s with he | ⟨a, _, _, he⟩ <;> simp [he]
  · rcases support_result_cases sender id s with h | h | h | h <;> simp [h]
  · rcases notSupport_result_cases sender id s with h | h | h | h <;> simp [h]
  · rcases execute_result_cases sender id transfer s with h | h | h | h | h | h <;>
      simp [h]
  · rcases view_result_cases sender id s with ⟨r, h⟩ | h | h | h <;> simp [h]

end Multisig
